import Mathlib

/-!
# Verification of the offcloud-downloader core against its specification

Shallow embedding, in Lean 4, of the core components of the
`offcloud-downloader` repository:

* the generic retry executor (`src/lib/utils/retry.js`),
* the queue manager with its capacity estimator and dedup table
  (`src/lib/watchers/offcloud/queuemanager.js`),
* the per-job lifecycle state machine (`src/lib/watchers/offcloud/torrent.js`).

JavaScript numbers are modelled as `ℕ` (byte counts, timestamps, counters)
or `ℚ` (arithmetic involving the fractional constants `1.2` and `0.1`);
the arithmetic is treated as exact.  Asynchronous functions are modelled as
pure state transformers taking the outcomes of their remote calls as
explicit arguments; a JS exception is an `Except`/`Outcome` failure value.
`Map`/`Set` objects become insertion-ordered association lists and lists.
-/

namespace Offcloud

/-- Result of a JS async call: either a value or a thrown error. -/
inductive Outcome (ε α : Type) where
  | ok (a : α)
  | fail (e : ε)
deriving DecidableEq

/-- Model of a JS `Error` object as thrown/caught by this code base.
`code` is the `err.code` property (empty when absent), `message` the
`err.message` property.  `attempts` models an attempt-count property
attached to the error object; the source never writes such a property,
so it stays whatever it was on the original error. -/
structure JsError where
  code : String
  message : String
  attempts : Option ℕ
deriving DecidableEq

/-- Shallow embedding of `calculateBackoff` from `src/lib/utils/retry.js`
(lines 100–107).  `rand` stands for the value returned by `Math.random()`,
a number in `[0, 1)`:

```js
const expBackoff = Math.min(maxDelay, Math.pow(2, retryCount) * baseDelay);
const jitter = expBackoff * 0.1;
return expBackoff + (Math.random() * jitter * 2) - jitter;
```
-/
def calculateBackoff (retryCount : ℕ) (baseDelay maxDelay : ℚ) (rand : ℚ) : ℚ :=
  let expBackoff := min maxDelay (2 ^ retryCount * baseDelay)
  let jitter := expBackoff * (1 / 10)
  expBackoff + (rand * jitter * 2) - jitter

/-- Shallow embedding of the `while (retryCount <= maxRetries)` loop of
`withRetry` from `src/lib/utils/retry.js` in its default `timeoutMs = 0`
(no overall timeout) configuration.  `asyncFn k` is the outcome of the
invocation of the wrapped operation made while `retryCount = k`;
`shouldRetry` is the retry predicate.  The function returns the final
outcome (`.ok` for a `return`, `.fail err` for a `throw err`) paired with
the number of invocations of `asyncFn` performed.  A caught error is
re-thrown untouched when `!shouldRetry(err) || retryCount >= maxRetries`;
otherwise `retryCount` is incremented and the loop sleeps and repeats. -/
def withRetryGo {α : Type} (asyncFn : ℕ → Outcome JsError α) (shouldRetry : JsError → Bool)
    (maxRetries retryCount : ℕ) : Outcome JsError α × ℕ :=
  match asyncFn retryCount with
  | .ok a => (.ok a, 1)
  | .fail err =>
    if h : shouldRetry err = false ∨ maxRetries ≤ retryCount then
      (.fail err, 1)
    else
      let rest := withRetryGo asyncFn shouldRetry maxRetries (retryCount + 1)
      (rest.1, rest.2 + 1)
termination_by maxRetries - retryCount
decreasing_by
  push_neg at h
  omega

/-- `withRetry` enters its loop with `retryCount = 0`. -/
def withRetry {α : Type} (asyncFn : ℕ → Outcome JsError α) (shouldRetry : JsError → Bool)
    (maxRetries : ℕ) : Outcome JsError α × ℕ :=
  withRetryGo asyncFn shouldRetry maxRetries 0

/-- Storage estimate kept by the queue manager (`this.storageInfo`). -/
structure StorageInfo where
  totalSpace : ℚ
  usedSpace : ℚ
  freeSpace : ℚ
  lastUpdated : ℕ
deriving DecidableEq

/-- Entry of the `cloud/history` response used by the capacity estimator:
`parseInt(item.fileSize, 10)` and `item.status`.  A missing or zero
`fileSize` (falsy in JS) is modelled as `0`. -/
structure HistItem where
  fileSize : ℕ
  status : String
deriving DecidableEq

/-- Item of the download queue built by `addToQueue`
(`src/lib/watchers/offcloud/queuemanager.js`, lines 230–257). -/
structure QueueItem where
  file : String
  extension : String
  addedTime : ℕ
  status : String
  priority : ℕ
  retries : ℕ
  maxRetries : ℕ
  fileSize : ℕ
  estimatedSize : ℕ
deriving DecidableEq

/-- Value of the `processedFiles` map: `{ hash, timestamp }`. -/
structure ProcessedInfo where
  hash : String
  timestamp : ℕ
deriving DecidableEq

/-- State of `OffCloudQueueManager` (the fields the claims depend on;
`client`, `downloadHistory` and the interval handles are external). -/
structure QMState where
  queue : List QueueItem
  maxConcurrentDownloads : ℕ
  activeDownloads : ℕ
  lastStorageCheck : ℕ
  storageInfo : Option StorageInfo
  isProcessing : Bool
  processedFiles : List (String × ProcessedInfo)
  processingRequests : List String
deriving DecidableEq

/-- Queue manager state right after the constructor ran. -/
def qmInit (maxConcurrentDownloads : ℕ) : QMState :=
  ⟨[], maxConcurrentDownloads, 0, 0, none, false, [], []⟩

/-- `this.minStorageRequired = 500 * 1024 * 1024` (500MB reserve). -/
def minStorageRequired : ℚ := 500 * 1024 * 1024

/-- `JS Map.get`: first binding of the key in the association list. -/
def mapGet (m : List (String × ProcessedInfo)) (k : String) : Option ProcessedInfo :=
  (m.find? (fun p => p.1 = k)).map (fun p => p.2)

/-- `JS Map.set`: update in place when the key exists, else append
(JS maps preserve insertion order). -/
def mapSet (m : List (String × ProcessedInfo)) (k : String) (v : ProcessedInfo) :
    List (String × ProcessedInfo) :=
  if m.any (fun p => p.1 = k) then
    m.map (fun p => if p.1 = k then (k, v) else p)
  else
    m ++ [(k, v)]

/-- `path.extname(file).toLowerCase()`: the suffix of the file name from
its last dot, lower-cased (`""` when there is no dot). -/
def extnameLower (file : String) : String :=
  (if file.toList.contains '.' then
    String.mk ('.' :: (file.toList.reverse.takeWhile (fun c => c ≠ '.')).reverse)
  else "").toLower

/-- `isFileProcessed` (queuemanager.js lines 63–84): a file counts as
processed when it is currently in `processingRequests`, or when its
recorded fingerprint matches the current one (`currentHash`, the content
hash with size+mtime fallback computed by `getFileHash`) and the record is
younger than one hour. -/
def isFileProcessed (st : QMState) (file currentHash : String) (now : ℕ) : Bool :=
  if file ∈ st.processingRequests then
    true
  else
    match mapGet st.processedFiles file with
    | some info => info.hash = currentHash ∧ now - info.timestamp < 3600000
    | none => false

/-- `markFileAsProcessed` (queuemanager.js lines 90–111): record the
file's fingerprint with the current time, then, when the map holds more
than 1000 entries, delete every entry older than 24 hours. -/
def markFileAsProcessed (st : QMState) (file hash : String) (now : ℕ) : QMState :=
  let pf := mapSet st.processedFiles file ⟨hash, now⟩
  let pf2 :=
    if 1000 < pf.length then
      pf.filter (fun p => ¬ (86400000 < now - p.2.timestamp))
    else pf
  { st with processedFiles := pf2 }

/-- Hourly tick of the `processedFilesCleanupInterval` timer installed by
`startPeriodicCleanup` (queuemanager.js lines 124–138): delete every
`processedFiles` entry older than 24 hours. -/
def processedFilesCleanupStep (st : QMState) (now : ℕ) : QMState :=
  { st with processedFiles :=
      st.processedFiles.filter (fun p => ¬ (86400000 < now - p.2.timestamp)) }

/-- `addToQueue` (queuemanager.js lines 217–276) as a state transformer.
`currentHash` is the fingerprint `getFileHash` computes for the file
(content hash, falling back to size+mtime); `statSize` is the result of
`fs.promises.stat(file)` (`none` when `stat` fails, which zeroes both
sizes).  The trailing `finally` block removes the `processingRequests`
marker only when the file did not make it into the queue; the call into
`processQueue` mutates none of the fields this function establishes and is
modelled as a separate event (see `qmStep`). -/
def addToQueue (st : QMState) (file currentHash : String) (now : ℕ)
    (statSize : Option ℕ) : QMState :=
  if isFileProcessed st file currentHash now then
    st
  else
    let st1 := { st with processingRequests :=
      if file ∈ st.processingRequests then st.processingRequests
      else st.processingRequests ++ [file] }
    let extension := extnameLower file
    let estimatedSize :=
      match statSize with
      | some sz =>
        if extension = ".torrent" ∨ extension = ".magnet" ∨ extension = ".nzb" then
          sz * 1000
        else sz
      | none => 0
    let queueItem : QueueItem :=
      ⟨file, extension, now, "queued", 1, 0, 3, statSize.getD 0, estimatedSize⟩
    let st2 := markFileAsProcessed st1 file currentHash now
    let st3 := { st2 with queue := st2.queue ++ [queueItem] }
    if file ∈ st3.processingRequests ∧ ¬ st3.queue.any (fun it => it.file = file) then
      { st3 with processingRequests := st3.processingRequests.filter (fun f => f ≠ file) }
    else
      st3

/-- `1024 * 1024 * 1024 * 50`: assumed total space (50 GB), since the
account/limits endpoints do not work. -/
def totalSpaceAssumed : ℚ := 1024 * 1024 * 1024 * 50

/-- Default storage info synthesized when the history query fails and no
cached estimate exists (queuemanager.js lines 459–464). -/
def defaultStorageInfo (now : ℕ) : StorageInfo :=
  ⟨totalSpaceAssumed, 0, totalSpaceAssumed, now⟩

/-- `updateStorageFromHistory` (queuemanager.js lines 413–469).  `history`
is the outcome of `this.client.cloudHistory()`.  Within the 60s TTL with a
cached estimate the query is skipped; on success the used space is the sum
of the sizes of "downloaded" history items with a truthy `fileSize`; on
failure the cached estimate is kept when present, otherwise the generous
default is synthesized.  The `try/catch` of the source makes the function
total: it returns an estimate on every path instead of raising. -/
def updateStorageFromHistory (st : QMState) (now : ℕ)
    (history : Except Unit (List HistItem)) : QMState × StorageInfo :=
  if now - st.lastStorageCheck < 60000 ∧ st.storageInfo.isSome then
    (st, st.storageInfo.getD (defaultStorageInfo now))
  else
    match history with
    | .ok hist =>
      let usedSpace : ℚ := hist.foldl
        (fun acc item =>
          if item.fileSize ≠ 0 ∧ item.status = "downloaded" then
            acc + (item.fileSize : ℚ)
          else acc) 0
      let si : StorageInfo := ⟨totalSpaceAssumed, usedSpace, totalSpaceAssumed - usedSpace, now⟩
      ({ st with storageInfo := some si, lastStorageCheck := now }, si)
    | .error _ =>
      match st.storageInfo with
      | some si => (st, si)
      | none =>
        let si := defaultStorageInfo now
        ({ st with storageInfo := some si }, si)

/-- `hasEnoughStorage` (queuemanager.js lines 476–490): with no storage
info the check fails; otherwise a 20% buffer is added to the estimated
size and the fixed minimum reserve is subtracted from the free space
before the strict comparison. -/
def hasEnoughStorage (st : QMState) (estimatedSize : ℚ) : Bool :=
  match st.storageInfo with
  | none => false
  | some si =>
    let sizeWithBuffer := estimatedSize * (12 / 10)
    decide (si.freeSpace - minStorageRequired > sizeWithBuffer)

/-- `getQueueStats` (queuemanager.js lines 496–507). -/
structure QueueStats where
  queueLength : ℕ
  activeDownloads : ℕ
  pendingItems : ℕ
  processingItems : ℕ
  errorItems : ℕ
  storageInfo : Option StorageInfo
  processedFilesCount : ℕ
  processingRequestsCount : ℕ
deriving DecidableEq

/-- Read-only snapshot of the queue manager state. -/
def getQueueStats (st : QMState) : QueueStats :=
  ⟨st.queue.length, st.activeDownloads,
    (st.queue.filter (fun it => it.status = "queued")).length,
    (st.queue.filter (fun it => it.status = "processing")).length,
    (st.queue.filter (fun it => it.status = "error")).length,
    st.storageInfo, st.processedFiles.length, st.processingRequests.length⟩

/-- Atomic synchronous segments of the queue manager that touch its
shared counters, for the interleaving invariant of C6.  The process is
single-threaded and cooperative, so every interleaving of `addToQueue`,
`processQueue` and `downloadCompleted` is a sequence of these segments:

* `addFile f h now sz` — one `addToQueue` call (it never touches
  `activeDownloads`);
* `admitItem` — the `processQueue` loop segment ending in
  `this.activeDownloads++`, which runs only under the loop guard
  `queue.length > 0 && activeDownloads < maxConcurrentDownloads`
  (between the guard and the increment only decrements can interleave,
  so the guard still holds at the increment);
* `finishItem` — the `finally` block
  `this.activeDownloads = Math.max(0, this.activeDownloads - 1)`;
* `completed` — `downloadCompleted()`, which clamps the decrement the
  same way and invalidates the storage-check timestamp. -/
inductive QMEvent where
  | addFile (file currentHash : String) (now : ℕ) (statSize : Option ℕ)
  | admitItem
  | finishItem
  | completed

/-- One atomic segment of the queue manager. -/
def qmStep (st : QMState) (e : QMEvent) : QMState :=
  match e with
  | .addFile f h now sz => addToQueue st f h now sz
  | .admitItem =>
    if st.queue.length ≠ 0 ∧ st.activeDownloads < st.maxConcurrentDownloads then
      { st with activeDownloads := st.activeDownloads + 1 }
    else st
  | .finishItem => { st with activeDownloads := st.activeDownloads - 1 }
  | .completed => { st with activeDownloads := st.activeDownloads - 1, lastStorageCheck := 0 }

/-- Run a sequence of queue manager segments. -/
def qmRun (st : QMState) (es : List QMEvent) : QMState :=
  es.foldl qmStep st

/-- `s.includes(sub)` on JS strings. -/
def containsSubstr (s sub : String) : Bool :=
  (List.range (s.toList.length + 1)).any (fun i => sub.toList.isPrefixOf (s.toList.drop i))

/-- Connection-error test shared by `update` and `_delete` in
`src/lib/watchers/offcloud/torrent.js`:
`ECONNREFUSED`/`ECONNRESET`/`ETIMEDOUT` codes or a message including
`socket disconnected`. -/
def isConnectionErrorT (err : JsError) : Bool :=
  err.code = "ECONNREFUSED" ∨ err.code = "ECONNRESET" ∨ err.code = "ETIMEDOUT" ∨
    containsSubstr err.message "socket disconnected"

/-- State of an `OffCloudTorrent` job.  Local `status` is the source's
string-valued state machine (`pending`, `queued`, `downloading`,
`downloaded`, `aria2dl`, `invalid`, `delete`).  `callbackCount` models how
often the `onComplete` completion callback has fired (the source installs
`onComplete` once from the watcher); the local descriptor-file unlink of
`_delete` is best-effort filesystem I/O outside the claims and is not
tracked. -/
structure TorrentState where
  status : String
  updateRetries : ℕ
  maxUpdateRetries : ℕ
  lastUpdate : ℕ
  lastUpdateFailed : Bool
  id : ℕ
  isdir : Bool
  callbackCount : ℕ
deriving DecidableEq

/-- Outcomes of the remote calls a poll step can make, passed explicitly:
`deleteResults k` is the outcome of the `this.client.delete(this.id)` call
made with `retryCount = k` inside `_delete`;  `downloadResult` the outcome
of the `downloadFn` materializer call;  `exploreResult` the outcome of
`this.client.explore(this.id)`. -/
structure TorrentEnv where
  deleteResults : ℕ → Except JsError Unit
  downloadResult : Except JsError Unit
  exploreResult : Except JsError (List String)

/-- Inner `info.status` object of a `cloud/status` poll response.  A poll
response whose `info` or `info.status` is falsy is modelled as `none` at
the use site. -/
structure RemoteInfo where
  status : String
  fileSize : ℕ
  fileName : String
  isDirectory : Bool
deriving DecidableEq

/-- Number of times `attemptDelete` (torrent.js lines 248–282) invokes the
`onComplete` callback, starting from `retryCount`.  On a successful remote
delete the callback fires; on a connection error with `retryCount < 3` the
delete is retried after a backoff; on any other failure (or once the three
retries are spent) the callback still fires. -/
def attemptDeleteCalls (deleteResults : ℕ → Except JsError Unit) (retryCount : ℕ) : ℕ :=
  match deleteResults retryCount with
  | .ok _ => 1
  | .error err =>
    if h : isConnectionErrorT err = true ∧ retryCount < 3 then
      attemptDeleteCalls deleteResults (retryCount + 1)
    else
      1
termination_by 3 - retryCount
decreasing_by
  obtain ⟨_, h2⟩ := h
  omega

/-- `_delete` (torrent.js lines 227–285): enter the terminal `invalid`
state, best-effort unlink the local file (not tracked), then run the
remote-delete retry loop, which ends in exactly the callback firings
counted by `attemptDeleteCalls` from `retryCount = 0`. -/
def deleteRun (st : TorrentState) (env : TorrentEnv) : TorrentState :=
  { st with status := "invalid",
            callbackCount := st.callbackCount + attemptDeleteCalls env.deleteResults 0 }

/-- `_handleUpdate` (torrent.js lines 152–225).  Returns `.error` when the
handler's promise rejects (a failed materializer or explore call), which
the caller's `.catch` then receives. -/
def handleUpdate (st : TorrentState) (env : TorrentEnv) (info : Option RemoteInfo) :
    Except JsError TorrentState :=
  match info with
  | none => .ok st
  | some i =>
    if i.status = "error" ∨ i.status = "canceled" then
      .ok (deleteRun st env)
    else if i.status = "downloaded" ∧ st.status = "downloading" then
      let st1 := { st with status := "downloaded", isdir := i.isDirectory }
      if st1.isdir = false then
        let st2 := { st1 with status := "aria2dl" }
        match env.downloadResult with
        | .ok _ => .ok (deleteRun st2 env)
        | .error e => .error e
      else
        match env.exploreResult with
        | .ok _ =>
          let st2 := { st1 with status := "aria2dl" }
          match env.downloadResult with
          | .ok _ => .ok (deleteRun st2 env)
          | .error e => .error e
        | .error e =>
          if containsSubstr e.message "Bad archive" then
            let st2 := { st1 with status := "aria2dl" }
            match env.downloadResult with
            | .ok _ => .ok (deleteRun st2 env)
            | .error e2 => .error e2
          else
            .error e
    else
      .ok st

/-- The `.catch` branch of `update` (torrent.js lines 121–143): stamp the
failure, and either consume one poll retry (connection error with budget
left) or force the terminal `invalid` state — without running `_delete`
and hence without firing the completion callback. -/
def updateCatch (st : TorrentState) (err : JsError) (now : ℕ) : TorrentState :=
  let st1 := { st with lastUpdate := now, lastUpdateFailed := true }
  if isConnectionErrorT err ∧ st1.updateRetries < st1.maxUpdateRetries then
    { st1 with updateRetries := st1.updateRetries + 1 }
  else
    { st1 with status := "invalid" }

/-- `update` (torrent.js lines 97–144).  `pollResult` is the outcome of
`this.client.CloudStatus(this.id)`; `.ok none` models a response whose
`info`/`info.status` is falsy.  Terminal or still-initialising jobs and
jobs inside the 30s failed-poll cooldown are not polled.  A successful
poll resets the poll-retry counter before `_handleUpdate` runs; an error
thrown out of `_handleUpdate` lands in the same `.catch`. -/
def update (st : TorrentState) (env : TorrentEnv) (now : ℕ)
    (pollResult : Except JsError (Option RemoteInfo)) : TorrentState :=
  if st.id = 0 ∨ st.status = "invalid" ∨ st.status = "delete" ∨ st.status = "aria2dl" then
    st
  else if st.lastUpdateFailed ∧ now - st.lastUpdate < 30000 then
    st
  else
    match pollResult with
    | .ok info =>
      let st1 := { st with lastUpdate := now, lastUpdateFailed := false, updateRetries := 0 }
      match handleUpdate st1 env info with
      | .ok st2 => st2
      | .error e => updateCatch st1 e now
    | .error e => updateCatch st e now

end Offcloud

namespace Offcloud

/-- Helper: call-count bounds for the retry loop started at any `retryCount`. -/
theorem withRetryGo_invocations {α : Type} (f : ℕ → Outcome JsError α)
    (sr : JsError → Bool) (m : ℕ) :
    ∀ fuel rc, m - rc ≤ fuel →
      1 ≤ (withRetryGo f sr m rc).2 ∧ (withRetryGo f sr m rc).2 ≤ m - rc + 1 := by
  intro fuel
  induction fuel with
  | zero =>
    intro rc hrc
    rw [withRetryGo]
    cases hf : f rc with
    | ok a => simp
    | fail e =>
      have hle : m ≤ rc := by omega
      dsimp only
      rw [dif_pos (Or.inr hle)]
      simp
  | succ n ih =>
    intro rc hrc
    rw [withRetryGo]
    cases hf : f rc with
    | ok a => simp
    | fail e =>
      dsimp only
      by_cases hcond : sr e = false ∨ m ≤ rc
      · rw [dif_pos hcond]
        simp
      · rw [dif_neg hcond]
        push_neg at hcond
        obtain ⟨ha, hb⟩ := ih (rc + 1) (by omega)
        have hlt : rc < m := by omega
        dsimp only
        constructor
        · omega
        · omega

/-- C10: For every invocation of the retry executor with any non-negative
`maxRetries` (including `maxRetries = 0`), the wrapped operation is invoked
at least once and at most `maxRetries + 1` times; termination of the loop
is witnessed by `withRetryGo` being a total Lean function. -/
theorem withRetry_invocation_bounds {α : Type} (f : ℕ → Outcome JsError α)
    (sr : JsError → Bool) (m : ℕ) :
    1 ≤ (withRetry f sr m).2 ∧ (withRetry f sr m).2 ≤ m + 1 := by
  have h := withRetryGo_invocations f sr m m 0 (by omega)
  simpa [withRetry] using h

/-- C2: with `baseDelay = 1000`, the backoff delay for attempt `n` lies in
`[0.9 · min(maxDelay, 1000·2^n), 1.1 · min(maxDelay, 1000·2^n)]`:
exponential growth clamped at `maxDelay`, jitter applied after the clamp. -/
theorem calculateBackoff_jitter_bounds (n : ℕ) (maxDelay rand : ℚ)
    (hmd : 0 ≤ maxDelay) (hr0 : 0 ≤ rand) (hr1 : rand < 1) :
    (9 / 10) * min maxDelay (1000 * 2 ^ n) ≤ calculateBackoff n 1000 maxDelay rand ∧
    calculateBackoff n 1000 maxDelay rand ≤ (11 / 10) * min maxDelay (1000 * 2 ^ n) := by
  have hcomm : (2 : ℚ) ^ n * 1000 = 1000 * 2 ^ n := mul_comm _ _
  have he : (0 : ℚ) ≤ min maxDelay ((1000 : ℚ) * 2 ^ n) := le_min hmd (by positivity)
  simp only [calculateBackoff, hcomm]
  constructor
  · nlinarith [mul_nonneg hr0 he]
  · nlinarith [mul_nonneg (sub_nonneg.mpr hr1.le) he]

/-- Witness for C2 at `n = 3`, `maxDelay = 60000`, `rand = 1/2`. -/
theorem calculateBackoff_jitter_bounds_witness :
    (9 / 10) * min (60000 : ℚ) (1000 * 2 ^ 3) ≤ calculateBackoff 3 1000 60000 (1 / 2) ∧
    calculateBackoff 3 1000 60000 (1 / 2) ≤ (11 / 10) * min (60000 : ℚ) (1000 * 2 ^ 3) :=
  calculateBackoff_jitter_bounds 3 60000 (1 / 2) (by norm_num) (by norm_num) (by norm_num)

/-- Helper: when every attempt fails with a retryable error, the loop
started at `rc ≤ m` runs through attempt `m` and re-throws that attempt's
error object unchanged. -/
theorem withRetryGo_exhaust {α : Type} (f : ℕ → Outcome JsError α) (sr : JsError → Bool)
    (m : ℕ) (hfail : ∀ k, ∃ e, f k = .fail e ∧ sr e = true) :
    ∀ fuel rc, m - rc ≤ fuel → rc ≤ m → (withRetryGo f sr m rc).1 = f m := by
  intro fuel
  induction fuel with
  | zero =>
    intro rc hrc hle
    have hrm : rc = m := by omega
    obtain ⟨e, hfe, _⟩ := hfail rc
    rw [withRetryGo, hfe]
    dsimp only
    rw [dif_pos (Or.inr (le_of_eq hrm.symm))]
    rw [hrm] at hfe
    exact hfe.symm
  | succ n ih =>
    intro rc hrc hle
    obtain ⟨e, hfe, hsr⟩ := hfail rc
    rw [withRetryGo, hfe]
    dsimp only
    rcases Nat.lt_or_ge rc m with hlt | hge
    · have hne : ¬(sr e = false ∨ m ≤ rc) := by
        rintro (h | h)
        · rw [hsr] at h
          exact Bool.noConfusion h
        · omega
      rw [dif_neg hne]
      exact ih (rc + 1) (by omega) (by omega)
    · have hrm : rc = m := by omega
      rw [dif_pos (Or.inr hge)]
      rw [hrm] at hfe
      exact hfe.symm

/-- C3 counterexample: an operation that fails on every attempt with a
retryable error (`ECONNRESET`) and `maxRetries = 2`.  Once the budget is
exhausted, the executor re-raises the very error object of the last
attempt, whose attempt-count slot is still `none`: no attempt count is
attached to the re-raised error (the attempt count only appears in a log
message). -/
theorem withRetry_exhaust_no_attempt_count :
    ((withRetry (fun _ => (Outcome.fail ⟨"ECONNRESET", "socket hang up", none⟩ :
        Outcome JsError Unit)) (fun _ => true) 2).1
      = Outcome.fail ⟨"ECONNRESET", "socket hang up", none⟩) ∧
    JsError.attempts ⟨"ECONNRESET", "socket hang up", none⟩ = none := by
  constructor
  · exact withRetryGo_exhaust _ _ 2 (fun _ => ⟨_, rfl, rfl⟩) 2 0 (by omega) (by omega)
  · rfl

/-- C3 (amended): for every invocation whose operation fails on every
attempt with a retryable error, once the retry budget is exhausted the
executor re-raises the last error unchanged (the attempt count appears in
a log line, not on the error). -/
theorem withRetry_exhaust_reraises_last_error {α : Type} (f : ℕ → Outcome JsError α)
    (sr : JsError → Bool) (m : ℕ) (hfail : ∀ k, ∃ e, f k = .fail e ∧ sr e = true) :
    (withRetry f sr m).1 = f m :=
  withRetryGo_exhaust f sr m hfail m 0 (by omega) (by omega)

/-- Witness for C3's amended theorem: three attempts all failing with
`ECONNRESET`; the final outcome is that same error, re-thrown. -/
theorem withRetry_exhaust_reraises_last_error_witness :
    (withRetry (fun _ => (Outcome.fail ⟨"ECONNRESET", "read ECONNRESET", none⟩ :
        Outcome JsError Unit)) (fun _ => true) 2).1
      = Outcome.fail ⟨"ECONNRESET", "read ECONNRESET", none⟩ :=
  withRetry_exhaust_reraises_last_error
    (fun _ => (Outcome.fail ⟨"ECONNRESET", "read ECONNRESET", none⟩ : Outcome JsError Unit))
    (fun _ => true) 2 (fun _ => ⟨_, rfl, rfl⟩)

/-- C1: with a present storage estimate of free space `F`, the fixed
reserve `R = minStorageRequired` and a requested estimate `S`, admission
is granted iff `(F − R) > S × 1.2`, and every input on the boundary
`S × 1.2 = F − R` is rejected. -/
theorem hasEnoughStorage_admission (st : QMState) (si : StorageInfo) (S : ℚ)
    (hsi : st.storageInfo = some si) :
    (hasEnoughStorage st S = true ↔ si.freeSpace - minStorageRequired > S * (12 / 10)) ∧
    (S * (12 / 10) = si.freeSpace - minStorageRequired → hasEnoughStorage st S = false) := by
  simp only [hasEnoughStorage, hsi]
  constructor
  · exact decide_eq_true_iff
  · intro hb
    rw [hb]
    simp

/-- Witness for C1: on the exact boundary (free space `R + 12`, estimate
`10`, `10 × 1.2 = 12`) admission is denied. -/
theorem hasEnoughStorage_admission_witness :
    hasEnoughStorage { qmInit 3 with
      storageInfo := some ⟨totalSpaceAssumed, 0, minStorageRequired + 12, 0⟩ } 10 = false :=
  (hasEnoughStorage_admission _ ⟨totalSpaceAssumed, 0, minStorageRequired + 12, 0⟩ 10 rfl).2
    (by ring)

/-- C4: when the remote history query fails, the refresh returns the
cached estimate unchanged when one exists, and the synthesized generous
default estimate otherwise; the `try/catch` makes the refresh total, so
no error propagates out of it on any input. -/
theorem updateStorageFromHistory_query_failure (st : QMState) (now : ℕ) :
    (updateStorageFromHistory st now (Except.error ())).2
      = st.storageInfo.getD (defaultStorageInfo now) := by
  rw [updateStorageFromHistory]
  by_cases h : now - st.lastStorageCheck < 60000 ∧ st.storageInfo.isSome
  · rw [if_pos h]
  · rw [if_neg h]
    dsimp only
    cases hsi : st.storageInfo with
    | some si => simp
    | none => simp

/-- Helper: an `addToQueue` call never touches the `activeDownloads`
counter nor the concurrency bound. -/
theorem addToQueue_counters (st : QMState) (file ch : String) (now : ℕ) (sz : Option ℕ) :
    (addToQueue st file ch now sz).activeDownloads = st.activeDownloads ∧
    (addToQueue st file ch now sz).maxConcurrentDownloads = st.maxConcurrentDownloads := by
  rw [addToQueue.eq_def]
  split_ifs with h1
  · exact ⟨rfl, rfl⟩
  all_goals constructor
  all_goals simp [apply_ite QMState.activeDownloads,
    apply_ite QMState.maxConcurrentDownloads, markFileAsProcessed]

/-- Helper: every atomic segment preserves the concurrency bound and the
invariant `activeDownloads ≤ maxConcurrentDownloads`. -/
theorem qmStep_invariant (st : QMState) (e : QMEvent)
    (h : st.activeDownloads ≤ st.maxConcurrentDownloads) :
    (qmStep st e).activeDownloads ≤ (qmStep st e).maxConcurrentDownloads ∧
    (qmStep st e).maxConcurrentDownloads = st.maxConcurrentDownloads := by
  cases e with
  | addFile f ch now sz =>
    obtain ⟨ha, hm⟩ := addToQueue_counters st f ch now sz
    rw [qmStep, ha, hm]
    exact ⟨h, rfl⟩
  | admitItem =>
    rw [qmStep]
    split_ifs with hc
    · exact ⟨hc.2, rfl⟩
    · exact ⟨h, rfl⟩
  | finishItem =>
    exact ⟨by dsimp [qmStep]; omega, rfl⟩
  | completed =>
    exact ⟨by dsimp [qmStep]; omega, rfl⟩

/-- Helper: the invariant holds along any run of segments. -/
theorem qmRun_invariant (es : List QMEvent) :
    ∀ st : QMState, st.activeDownloads ≤ st.maxConcurrentDownloads →
      (qmRun st es).activeDownloads ≤ (qmRun st es).maxConcurrentDownloads ∧
      (qmRun st es).maxConcurrentDownloads = st.maxConcurrentDownloads := by
  induction es with
  | nil => intro st h; exact ⟨h, rfl⟩
  | cons e es ih =>
    intro st h
    obtain ⟨h1, h2⟩ := qmStep_invariant st e h
    obtain ⟨h3, h4⟩ := ih (qmStep st e) h1
    exact ⟨h3, h4.trans h2⟩

/-- C6: in every state reachable from a fresh queue manager under any
interleaving of `addToQueue`, `processQueue` segments and
`downloadCompleted` calls, the `activeDownloads` counter as reported by
`getQueueStats` never exceeds `maxConcurrentDownloads`. -/
theorem activeDownloads_never_exceeds_max (m : ℕ) (es : List QMEvent) :
    (getQueueStats (qmRun (qmInit m) es)).activeDownloads ≤ m := by
  obtain ⟨h1, h2⟩ := qmRun_invariant es (qmInit m) (by simp [qmInit])
  calc (getQueueStats (qmRun (qmInit m) es)).activeDownloads
      = (qmRun (qmInit m) es).activeDownloads := rfl
    _ ≤ (qmRun (qmInit m) es).maxConcurrentDownloads := h1
    _ = m := h2

/-- Helper: `Map.set` never shrinks the dedup table. -/
theorem mapSet_length_ge (m : List (String × ProcessedInfo)) (k : String)
    (v : ProcessedInfo) : m.length ≤ (mapSet m k v).length := by
  rw [mapSet]
  split_ifs <;> simp

/-- C8: the hourly cleanup tick removes every dedup entry older than 24
hours, and `markFileAsProcessed` performs the same pruning whenever the
table exceeds the 1000-entry size bound. -/
theorem dedupTable_pruning (st : QMState) (now : ℕ) (file hash : String) :
    (∀ p ∈ (processedFilesCleanupStep st now).processedFiles,
        ¬ (86400000 < now - p.2.timestamp)) ∧
    (1000 < st.processedFiles.length →
      ∀ p ∈ (markFileAsProcessed st file hash now).processedFiles,
        ¬ (86400000 < now - p.2.timestamp)) := by
  constructor
  · intro p hp
    rw [processedFilesCleanupStep] at hp
    simp only [List.mem_filter, decide_eq_true_eq] at hp
    exact hp.2
  · intro hlen p hp
    have hlen2 : 1000 < (mapSet st.processedFiles file ⟨hash, now⟩).length :=
      lt_of_lt_of_le hlen (mapSet_length_ge _ _ _)
    rw [markFileAsProcessed] at hp
    dsimp only at hp
    rw [if_pos hlen2] at hp
    simp only [List.mem_filter, decide_eq_true_eq] at hp
    exact hp.2

/-- Witness for C8: a table of 1001 fresh entries triggers the size-bound
prune on `markFileAsProcessed`, and the cleanup tick leaves only young
entries. -/
theorem dedupTable_pruning_witness :
    (∀ p ∈ (processedFilesCleanupStep
        { qmInit 3 with processedFiles := List.replicate 1001 ("g", ⟨"h", 0⟩) }
        0).processedFiles, ¬ (86400000 < 0 - p.2.timestamp)) ∧
    (∀ p ∈ (markFileAsProcessed
        { qmInit 3 with processedFiles := List.replicate 1001 ("g", ⟨"h", 0⟩) }
        "f" "h" 0).processedFiles, ¬ (86400000 < 0 - p.2.timestamp)) :=
  ⟨(dedupTable_pruning _ 0 "f" "h").1,
   (dedupTable_pruning _ 0 "f" "h").2 (by rw [List.length_replicate]; omega)⟩

/-- Helper: a file currently carrying an in-flight marker counts as
processed. -/
theorem isFileProcessed_of_mem (st : QMState) (file ch : String) (now : ℕ)
    (hm : file ∈ st.processingRequests) :
    isFileProcessed st file ch now = true := by
  rw [isFileProcessed, if_pos hm]

/-- Helper: `addToQueue` is a no-op on a file that counts as processed. -/
theorem addToQueue_noop (st : QMState) (file ch : String) (now : ℕ) (sz : Option ℕ)
    (hp : isFileProcessed st file ch now = true) :
    addToQueue st file ch now sz = st := by
  rw [addToQueue.eq_def, if_pos hp]

/-- Helper: an admitted `addToQueue` call leaves its in-flight marker in
`processingRequests` (the `finally` clean-up does not fire because the
item reached the queue) and appends exactly one queue item. -/
theorem addToQueue_admitted (st : QMState) (file ch : String) (now : ℕ) (sz : Option ℕ)
    (hfresh : isFileProcessed st file ch now = false) :
    file ∈ (addToQueue st file ch now sz).processingRequests ∧
    (addToQueue st file ch now sz).queue.length = st.queue.length + 1 := by
  have hmem : file ∉ st.processingRequests := by
    intro hm
    rw [isFileProcessed_of_mem st file ch now hm] at hfresh
    exact Bool.noConfusion hfresh
  rw [addToQueue.eq_def, if_neg (by simp [hfresh])]
  constructor
  · simp [markFileAsProcessed, if_neg hmem, apply_ite QMState.processingRequests]
  · simp [markFileAsProcessed, if_neg hmem, apply_ite QMState.queue]

/-- C5 counterexample: two `addToQueue` calls whose descriptors share the
content fingerprint `deadbeef` within the dedup window but live at
different paths both create a queue item — the dedup table is keyed by
file path, so a shared fingerprint alone does not make the second call a
no-op. -/
theorem addToQueue_shared_fingerprint_distinct_paths :
    (addToQueue (addToQueue (qmInit 3) "/watch/a.magnet" "deadbeef" 0 (some 5))
        "/watch/b.magnet" "deadbeef" 0 (some 5)).queue.length = 2 := by decide

/-- C5 (amended): for any sequence of `addToQueue` calls on the same
descriptor path, if the first call is admitted then it creates exactly
one QueueItem and every later call — whatever fingerprint or time it
sees while the first is still queued/in flight — is a no-op; calls on
distinct paths are deduplicated only per path, not by shared
fingerprint. -/
theorem addToQueue_same_path_dedup (st : QMState) (file h1 h2 : String)
    (now1 now2 : ℕ) (sz1 sz2 : Option ℕ)
    (hfresh : isFileProcessed st file h1 now1 = false) :
    (addToQueue st file h1 now1 sz1).queue.length = st.queue.length + 1 ∧
    addToQueue (addToQueue st file h1 now1 sz1) file h2 now2 sz2
      = addToQueue st file h1 now1 sz1 := by
  obtain ⟨hmem2, hlen⟩ := addToQueue_admitted st file h1 now1 sz1 hfresh
  exact ⟨hlen, addToQueue_noop _ _ _ _ _ (isFileProcessed_of_mem _ _ h2 now2 hmem2)⟩

/-- Witness for C5's amended theorem on a fresh queue manager: the first
call on a path is admitted, the repeat call (here even with a different
hash, two hours later) is a no-op. -/
theorem addToQueue_same_path_dedup_witness :
    (addToQueue (qmInit 3) "/watch/a.magnet" "deadbeef" 0 (some 5)).queue.length
        = (qmInit 3).queue.length + 1 ∧
    addToQueue (addToQueue (qmInit 3) "/watch/a.magnet" "deadbeef" 0 (some 5))
        "/watch/a.magnet" "cafe" 7200000 (some 5)
      = addToQueue (qmInit 3) "/watch/a.magnet" "deadbeef" 0 (some 5) :=
  addToQueue_same_path_dedup (qmInit 3) "/watch/a.magnet" "deadbeef" "cafe"
    0 7200000 (some 5) (some 5) (by decide)

/-- Helper: the remote-delete retry loop of `_delete` always ends with
exactly one firing of the completion callback, whatever the delete
outcomes are. -/
theorem attemptDeleteCalls_eq_one (res : ℕ → Except JsError Unit) :
    ∀ fuel rc, 3 - rc ≤ fuel → attemptDeleteCalls res rc = 1 := by
  intro fuel
  induction fuel with
  | zero =>
    intro rc hrc
    rw [attemptDeleteCalls]
    cases hr : res rc with
    | ok a => rfl
    | error e =>
      dsimp only
      rw [dif_neg (by rintro ⟨-, hlt⟩; omega)]
  | succ n ih =>
    intro rc hrc
    rw [attemptDeleteCalls]
    cases hr : res rc with
    | ok a => rfl
    | error e =>
      dsimp only
      by_cases hc : isConnectionErrorT e = true ∧ rc < 3
      · rw [dif_pos hc]
        exact ih (rc + 1) (by omega)
      · rw [dif_neg hc]

/-- C7 counterexample: a job polled in the `downloading` state whose poll
fails with a connection error after its five poll retries are already
spent enters the terminal `invalid` state on the `update` catch path,
which never runs `_delete` — so its completion callback fires zero times,
not exactly once. -/
theorem update_exhaustion_invalid_without_callback :
    ((update ⟨"downloading", 5, 5, 0, false, 7, false, 0⟩
        ⟨fun _ => Except.ok (), Except.ok (), Except.ok []⟩ 60000
        (Except.error ⟨"ECONNRESET", "read ECONNRESET", none⟩)).status = "invalid") ∧
    ((update ⟨"downloading", 5, 5, 0, false, 7, false, 0⟩
        ⟨fun _ => Except.ok (), Except.ok (), Except.ok []⟩ 60000
        (Except.error ⟨"ECONNRESET", "read ECONNRESET", none⟩)).callbackCount = 0) :=
  ⟨rfl, rfl⟩

/-- C7 (amended): every job whose entry into the terminal `invalid` state
goes through the delete routine `_delete` fires the completion callback
exactly once, regardless of whether the remote deletion succeeds, fails
after the three connection-error retries, or fails with a non-retryable
error; a job invalidated on the poll-failure path (`update`'s catch)
fires no callback. -/
theorem deleteRun_fires_callback_exactly_once (st : TorrentState) (env : TorrentEnv) :
    (deleteRun st env).status = "invalid" ∧
    (deleteRun st env).callbackCount = st.callbackCount + 1 := by
  refine ⟨rfl, ?_⟩
  rw [deleteRun, attemptDeleteCalls_eq_one env.deleteResults 3 0 (by omega)]

/-- C9: a successful poll reporting remote status `canceled` (or `error`)
on a pollable, non-terminal job transitions it to the terminal `invalid`
state within that single poll step, through `_delete` (so the completion
callback fires); the poll-retry counter — reset by the successful poll —
ends at zero, and the queue item's lifecycle retry budget
(`QueueItem.retries`, owned by the queue manager) is untouched: `update`
neither reads nor writes any `QMState`. -/
theorem poll_canceled_immediate_invalid (st : TorrentState) (env : TorrentEnv)
    (now : ℕ) (info : RemoteInfo)
    (hid : st.id ≠ 0) (hs1 : st.status ≠ "invalid") (hs2 : st.status ≠ "delete")
    (hs3 : st.status ≠ "aria2dl")
    (hcool : st.lastUpdateFailed = false ∨ ¬ (now - st.lastUpdate < 30000))
    (hc : info.status = "canceled" ∨ info.status = "error") :
    (update st env now (Except.ok (some info))).status = "invalid" ∧
    (update st env now (Except.ok (some info))).updateRetries = 0 ∧
    (update st env now (Except.ok (some info))).callbackCount = st.callbackCount + 1 := by
  have hh : ∀ s : TorrentState, handleUpdate s env (some info) = .ok (deleteRun s env) := by
    intro s
    rw [handleUpdate]
    dsimp only
    rw [if_pos hc.symm]
  have hskip1 : ¬ (st.id = 0 ∨ st.status = "invalid" ∨ st.status = "delete" ∨
      st.status = "aria2dl") := by
    simp [hid, hs1, hs2, hs3]
  have hskip2 : ¬ ((st.lastUpdateFailed = true) ∧ now - st.lastUpdate < 30000) := by
    rcases hcool with h | h
    · rintro ⟨h1, -⟩
      rw [h] at h1
      exact Bool.noConfusion h1
    · rintro ⟨-, h2⟩
      exact h h2
  rw [update.eq_def, if_neg hskip1, if_neg hskip2]
  simp [hh, deleteRun, attemptDeleteCalls_eq_one env.deleteResults 3 0 (by omega)]

/-- Witness for C9: a `downloading` job with two poll retries consumed is
polled and the remote reports `canceled`. -/
theorem poll_canceled_immediate_invalid_witness :
    ((update ⟨"downloading", 2, 5, 100, false, 7, false, 0⟩
        ⟨fun _ => Except.ok (), Except.ok (), Except.ok []⟩ 200
        (Except.ok (some ⟨"canceled", 0, "", false⟩))).status = "invalid") ∧
    ((update ⟨"downloading", 2, 5, 100, false, 7, false, 0⟩
        ⟨fun _ => Except.ok (), Except.ok (), Except.ok []⟩ 200
        (Except.ok (some ⟨"canceled", 0, "", false⟩))).updateRetries = 0) ∧
    ((update ⟨"downloading", 2, 5, 100, false, 7, false, 0⟩
        ⟨fun _ => Except.ok (), Except.ok (), Except.ok []⟩ 200
        (Except.ok (some ⟨"canceled", 0, "", false⟩))).callbackCount = 0 + 1) :=
  poll_canceled_immediate_invalid ⟨"downloading", 2, 5, 100, false, 7, false, 0⟩
    ⟨fun _ => Except.ok (), Except.ok (), Except.ok []⟩ 200 ⟨"canceled", 0, "", false⟩
    (by decide) (by decide) (by decide) (by decide) (Or.inl rfl) (Or.inl rfl)

end Offcloud
